import Mathlib

/-!
A shallow embedding of `src/pydownloader/downloader.py` (danudey/python-downloader).

Modelling conventions:
* The filesystem is a record of boolean predicates over path strings
  (`pathlib.Path.exists`, `Path.is_dir`, `os.path.isfile`).  Relative names
  passed to `os.path.isfile` are resolved against an explicit current working
  directory `cwd`; `pathlib.Path.joinpath` is string concatenation with `/`.
* Python's global `random` module state is a predetermined stream of choices
  (`Rand`): each `random.choice(string.ascii_lowercase)` consumes one entry,
  exactly as the global Mersenne generator advances once per `choice` call.
* The external collaborators (the `requests` transport, the `rich` progress
  sink, the file handles) are modelled by an event trace: each observable call
  the Python code makes becomes one `Event`.  A response object carries the
  already-parsed Content-Disposition parameters (the stdlib
  `email.headerregistry` value parser is external, total, and never raises;
  its output is the parameter list), the Content-Type and Content-Length
  header values, and the list of body chunks yielded by `iter_content`.
* Python exceptions are the `PyError` type; a function that can raise returns
  `Except PyError`.  `threading.Event.is_set`, sampled at the i-th loop
  iteration of a copier, is a function `Nat → Bool`.
* `ThreadPoolExecutor(max_workers=1)` runs the submitted tasks one after
  another in submission order; `as_completed` therefore also yields futures in
  submission order.  The run is modelled as that sequential execution.
-/

namespace PyDownloader

/-- Python exceptions that the embedded code can raise. -/
inductive PyError where
  | keyError
  | attributeError
  | connectionError
  | destinationDoesNotExist
  | destinationIsNotDirectory
deriving DecidableEq, Repr

/-- The filesystem as seen through the predicates the source consults:
`Path.exists`, `Path.is_dir` and `os.path.isfile`, over path strings. -/
structure FS where
  pathExists : String → Bool
  isDir : String → Bool
  isFile : String → Bool

/-- `pathlib.Path.joinpath`: `path / name`. -/
def joinPath (dir name : String) : String := dir ++ "/" ++ name

/-- `os.path.isfile(name)` on a relative `name` resolves against the process
current working directory. -/
def os_isfile (fs : FS) (cwd name : String) : Bool := fs.isFile (joinPath cwd name)

/-- Opening a path with mode `"wb"` creates (or truncates) the file there. -/
def FS.createFile (fs : FS) (p : String) : FS :=
  { pathExists := fun q => if q = p then true else fs.pathExists q
    isDir := fs.isDir
    isFile := fun q => if q = p then true else fs.isFile q }

/-- The global `random` module state: a predetermined stream of
`random.choice` outcomes over a 26-letter alphabet, and the position of the
next draw. -/
structure Rand where
  choice : Nat → Fin 26
  pos : Nat

/-- `string.ascii_lowercase` as a list of characters. -/
def lowercaseChars : List Char :=
  ['a', 'b', 'c', 'd', 'e', 'f', 'g', 'h', 'i', 'j', 'k', 'l', 'm',
   'n', 'o', 'p', 'q', 'r', 's', 't', 'u', 'v', 'w', 'x', 'y', 'z']

/-- The letter `random.choice(string.ascii_lowercase)` returns for a draw. -/
def letterOf (i : Fin 26) : Char := lowercaseChars.get i

/-- `randomword(length)` (downloader.py lines 74-76): join `length` draws of
`random.choice(string.ascii_lowercase)`; the global random state advances by
`length` draws. -/
def randomword (r : Rand) (length : Nat) : String × Rand :=
  (String.mk ((List.range length).map fun i => letterOf (r.choice (r.pos + i))),
   { r with pos := r.pos + length })

/-- The candidate probed at index `i`: the f-string `f"{filename}.{i}"`. -/
def probeName (filename : String) (i : Nat) : String :=
  filename ++ "." ++ toString i

/-- The `for i in range(start, start+count)` search for the first index whose
probe is free (`free i = true`). -/
def findFreeIndex (free : Nat → Bool) (start : Nat) : Nat → Option Nat
  | 0 => none
  | Nat.succ c => if free start then some start else findFreeIndex free (start + 1) c

/-- `find_next_filename` (downloader.py lines 79-85): return `filename` if it
is not a file; otherwise the first free `filename.i` for `i` in
`range(1, 1000)`; otherwise `filename.<randomword(16)>`.  The `os.path.isfile`
probes resolve the bare name against the process cwd. -/
def find_next_filename (fs : FS) (cwd : String) (r : Rand) (filename : String) :
    String × Rand :=
  if os_isfile fs cwd filename = false then (filename, r)
  else
    match findFreeIndex (fun i => !os_isfile fs cwd (probeName filename i)) 1 999 with
    | some i => (probeName filename i, r)
    | none =>
        let w := randomword r 16
        (filename ++ "." ++ w.1, w.2)

/-- `dict(pairs)[key]` as an option: the value of the last pair with the key,
matching Python dict construction from a pair sequence. -/
def dictLookup (params : List (String × String)) (key : String) : Option String :=
  (params.reverse.find? (fun kv => kv.1 == key)).map (fun kv => kv.2)

/-- `filename_from_content_disposition` (lines 113-116): the stdlib header
value parser is total (it records defects instead of raising), so the header
is carried as its parsed parameter list; `params["filename"]` raises
`KeyError` when the parameter is absent. -/
def filename_from_content_disposition (params : List (String × String)) :
    Except PyError String :=
  match dictLookup params "filename" with
  | some v => Except.ok v
  | none => Except.error PyError.keyError

/-- Modelled fragment of the stdlib `mimetypes.guess_extension` table (an
external, fixed mapping); only entries exercised here are listed, every other
MIME type maps to `none` exactly as an unknown type does in the stdlib. -/
def guess_extension (mime : String) : Option String :=
  if mime = "text/plain" then some ".txt"
  else if mime = "text/html" then some ".html"
  else if mime = "application/pdf" then some ".pdf"
  else if mime = "application/json" then some ".json"
  else none

/-- `header.split(";")[0]`: everything before the first semicolon. -/
def takeUntilSemicolon (s : String) : String :=
  String.mk (s.data.takeWhile (fun c => c != ';'))

/-- Lines 141-148 of `copy_url`, entered when the filename so far is falsy:
`response.headers.get("Content-Type")` is `None` when the header is absent and
`.split(";")` on `None` raises `AttributeError`; otherwise the guessed
extension gives `index<ext>` run through `find_next_filename`, and a missing
mapping gives `index.bin.<randomword(12)>`. -/
def resolve_from_content_type (fs : FS) (cwd : String) (r : Rand)
    (contentType : Option String) : Except PyError (String × Rand) :=
  match contentType with
  | none => Except.error PyError.attributeError
  | some ct =>
      match guess_extension (takeUntilSemicolon ct) with
      | some ext => Except.ok (find_next_filename fs cwd r ("index" ++ ext))
      | none =>
          let w := randomword r 12
          Except.ok ("index.bin." ++ w.1, w.2)

/-- The `if not filename:` test (line 141) followed by the content-type
branch: Python truthiness makes both `None` and the empty string falsy. -/
def resolve_step2 (fs : FS) (cwd : String) (r : Rand) (filename : Option String)
    (contentType : Option String) : Except PyError (String × Rand) :=
  match filename with
  | some s =>
      if s.data.isEmpty then resolve_from_content_type fs cwd r contentType
      else Except.ok (s, r)
  | none => resolve_from_content_type fs cwd r contentType

/-- The whole filename computation of `copy_url` (lines 131-148): disposition
header first (its missing-`filename` `KeyError` propagates), else the
URL-derived default, else the content-type branch. -/
def resolve_filename (fs : FS) (cwd : String) (r : Rand)
    (dispositionParams : Option (List (String × String)))
    (default_filename : Option String) (contentType : Option String) :
    Except PyError (String × Rand) :=
  match dispositionParams with
  | some params =>
      match filename_from_content_disposition params with
      | Except.error e => Except.error e
      | Except.ok fn => resolve_step2 fs cwd r (some fn) contentType
  | none => resolve_step2 fs cwd r default_filename contentType

/-- One observable call the Python code makes to an external collaborator:
the `rich` progress sink, the transport, or a file handle. -/
inductive Event where
  | validate (dest : String)
  | addTask (taskId : Nat) (filename : String)
  | streamOpen (url : String)
  | streamClose (url : String)
  | updateFilename (taskId : Nat) (filename : String)
  | updateTotal (taskId : Nat) (total : Option Nat)
  | fileOpen (path : String)
  | startTask (taskId : Nat)
  | write (path : String) (data : String)
  | updateAdvance (taskId : Nat) (n : Nat)
  | fileClose (path : String)
  | removeTask (taskId : Nat)
  | log (msg : String)
deriving DecidableEq, Repr

/-- A streaming response: the already-parsed Content-Disposition parameter
list (`none` when the header is absent), the Content-Type and Content-Length
header values, and the body chunks yielded by `iter_content`. -/
structure Response where
  dispositionParams : Option (List (String × String))
  contentType : Option String
  contentLength : Option Nat
  chunks : List String
deriving DecidableEq, Repr

/-- The result of `requests.get`: a response, or a raised
`requests.exceptions.ConnectionError`. -/
inductive Fetch where
  | ok (resp : Response)
  | connectionError
deriving DecidableEq, Repr

/-- How one `copy_url` call terminated: returned after exhausting the stream,
returned early because `done_event` was set, or raised. -/
inductive CopyOutcome where
  | success
  | cancelled
  | raised (e : PyError)
deriving DecidableEq, Repr

/-- The state a finished `copy_url` call leaves behind: its event trace, how
it terminated, and the filesystem and random state after it. -/
structure CopyResult where
  trace : List Event
  outcome : CopyOutcome
  fs : FS
  rand : Rand

/-- The completion log line `f"Downloaded {url} to '{output_file_path}'"`. -/
def doneMsg (url path : String) : String :=
  "Downloaded " ++ url ++ " to '" ++ path ++ "'"

/-- The failure log line of `download`'s `except` clause. -/
def failMsg (url : String) : String :=
  "Failed to download '" ++ url ++ "': couldn't connect to server"

/-- The `for data in response.iter_content(...)` loop (lines 155-159): write
the chunk, advance the progress bar, then test `done_event.is_set()` (sampled
at the i-th iteration) and return early when it is set.  Returns the events
of the loop and whether it ended by cancellation. -/
def copyLoop (taskId : Nat) (path : String) (done : Nat → Bool) :
    List String → Nat → List Event × Bool
  | [], _ => ([], false)
  | data :: rest, i =>
      let evs := [Event.write path data, Event.updateAdvance taskId data.length]
      if done i then (evs, true)
      else
        let tail := copyLoop taskId path done rest (i + 1)
        (evs ++ tail.1, tail.2)

/-- Lines 137-161 of `copy_url`, after the disposition header was handled:
`evs0` are the events already emitted, `filename0` the filename so far.  The
name computation is `resolve_step2`; then the total is pushed to the sink, the
output file is opened with `"wb"` (creating or truncating it), the task is
started and the copy loop runs.  On a raise or an early return the `with`
block closes the file and the response is closed when the function exits. -/
def copy_url_body (fs : FS) (r : Rand) (cwd : String) (taskId : Nat)
    (url : String) (path : String) (resp : Response) (filename0 : Option String)
    (evs0 : List Event) (done : Nat → Bool) : CopyResult :=
  match resolve_step2 fs cwd r filename0 resp.contentType with
  | Except.error e =>
      { trace := evs0 ++ [Event.streamClose url], outcome := CopyOutcome.raised e,
        fs := fs, rand := r }
  | Except.ok nm =>
      let out := joinPath path nm.1
      let fs2 := fs.createFile out
      let head := evs0 ++ [Event.updateTotal taskId resp.contentLength,
        Event.fileOpen out, Event.startTask taskId]
      let loop := copyLoop taskId out done resp.chunks 0
      if loop.2 then
        { trace := head ++ loop.1 ++ [Event.fileClose out, Event.streamClose url],
          outcome := CopyOutcome.cancelled, fs := fs2, rand := nm.2 }
      else
        { trace := head ++ loop.1 ++ [Event.fileClose out, Event.removeTask taskId,
            Event.log (doneMsg url out), Event.streamClose url],
          outcome := CopyOutcome.success, fs := fs2, rand := nm.2 }

/-- `copy_url` (lines 119-161).  A `ConnectionError` from `requests.get`
removes the task from the sink and re-raises (lines 123-129).  A present
disposition header yields its filename and pushes it to the sink (lines
131-133), with a missing `filename` parameter raising `KeyError` out of the
task; otherwise the URL-derived default is used (line 135). -/
def copy_url (fs : FS) (r : Rand) (cwd : String) (taskId : Nat) (url : String)
    (path : String) (default_filename : Option String) (fetch : Fetch)
    (done : Nat → Bool) : CopyResult :=
  match fetch with
  | Fetch.connectionError =>
      { trace := [Event.removeTask taskId],
        outcome := CopyOutcome.raised PyError.connectionError, fs := fs, rand := r }
  | Fetch.ok resp =>
      match resp.dispositionParams with
      | some params =>
          match filename_from_content_disposition params with
          | Except.error e =>
              { trace := [Event.streamOpen url, Event.streamClose url],
                outcome := CopyOutcome.raised e, fs := fs, rand := r }
          | Except.ok fn =>
              copy_url_body fs r cwd taskId url path resp (some fn)
                [Event.streamOpen url, Event.updateFilename taskId fn] done
      | none =>
          copy_url_body fs r cwd taskId url path resp default_filename
            [Event.streamOpen url] done

/-- `parsed_url.path.split("/")[-1]` (line 176): the segment after the last
slash of the URL's path component (the whole string when it has no slash). -/
def default_filename_of (p : String) : String :=
  String.mk (p.data.foldl (fun acc c => if c = '/' then [] else acc ++ [c]) [])

/-- One URL of a run: its string, the path component `urlparse` extracts from
it (URL parsing is stdlib-external, so the component is carried alongside),
the transport's behaviour for it, and the `done_event` sampling its copier
observes. -/
structure UrlSpec where
  url : String
  urlPath : String
  fetch : Fetch
  done : Nat → Bool

/-- The accumulated state of the sequential task executions. -/
structure RunState where
  trace : List Event
  outcomes : List CopyOutcome
  fs : FS
  rand : Rand

/-- The single pool worker of `ThreadPoolExecutor(max_workers=1)` runs the
submitted `copy_url` calls one after another in submission order; task ids
are the order in which `progress.add_task` handed them out. -/
def runTasks (cwd dest : String) :
    List UrlSpec → Nat → FS → Rand → RunState
  | [], _, fs, r => { trace := [], outcomes := [], fs := fs, rand := r }
  | spec :: rest, i, fs, r =>
      let c := copy_url fs r cwd i spec.url dest
        (some (default_filename_of spec.urlPath)) spec.fetch spec.done
      let rst := runTasks cwd dest rest (i + 1) c.fs c.rand
      { trace := c.trace ++ rst.trace, outcomes := c.outcome :: rst.outcomes,
        fs := rst.fs, rand := rst.rand }

/-- The `as_completed` loop (lines 182-189): `future.result()` re-raises what
the task raised; only `requests.exceptions.ConnectionError` is caught and
logged, any other exception propagates out of `download` and aborts the
processing of the remaining futures. -/
def processResults : List (String × CopyOutcome) → List Event × Option PyError
  | [] => ([], none)
  | (url, out) :: rest =>
      match out with
      | CopyOutcome.raised PyError.connectionError =>
          let tail := processResults rest
          (Event.log (failMsg url) :: tail.1, tail.2)
      | CopyOutcome.raised e => ([], some e)
      | _ => processResults rest

/-- The result of a `download` call: its full event trace, the per-task
outcomes in submission order, and the exception (if any) that escaped the
result-processing loop. -/
structure RunResult where
  trace : List Event
  outcomes : List CopyOutcome
  err : Option PyError
  fs : FS
  rand : Rand

/-- `download` (lines 164-189): add one progress task per URL (ids 0,1,...)
with the URL-derived default as display name, run all submitted `copy_url`
calls on the single pool worker, then process the futures. -/
def download (fs : FS) (r : Rand) (cwd dest : String) (specs : List UrlSpec) :
    RunResult :=
  let addEvs := ((List.range specs.length).zip specs).map
    (fun p => Event.addTask p.1 (default_filename_of p.2.urlPath))
  let run := runTasks cwd dest specs 0 fs r
  let proc := processResults ((specs.map UrlSpec.url).zip run.outcomes)
  { trace := addEvs ++ run.trace ++ proc.1, outcomes := run.outcomes,
    err := proc.2, fs := run.fs, rand := run.rand }

/-- `directory_path` (lines 95-103): raise `DestinationDoesNotExist` when the
path does not exist, `DestinationIsNotDirectory` when it is not a directory,
else return it.  The existence/directory queries are its observable effect. -/
def directory_path (fs : FS) (pathname : String) :
    List Event × Except PyError String :=
  ([Event.validate pathname],
   if !fs.pathExists pathname then Except.error PyError.destinationDoesNotExist
   else if !fs.isDir pathname then Except.error PyError.destinationIsNotDirectory
   else Except.ok pathname)

/-- The per-run pipeline of `main` (lines 192-207): argparse applies the
`directory_path` converter exactly once to the single `--dest` value (also to
its string default), before `download` is invoked; an exception it raises
propagates and nothing further runs. -/
def run_main (fs : FS) (r : Rand) (cwd destArg : String)
    (specs : List UrlSpec) : List Event × Except PyError RunResult :=
  let v := directory_path fs destArg
  match v.2 with
  | Except.error e => (v.1, Except.error e)
  | Except.ok d =>
      let res := download fs r cwd d specs
      (v.1 ++ res.trace, Except.ok res)

/-! ### Counting helpers over event traces -/

/-- Is the event a stream open? -/
def isOpenEv : Event → Bool
  | Event.streamOpen _ => true
  | _ => false

/-- Is the event a stream close? -/
def isCloseEv : Event → Bool
  | Event.streamClose _ => true
  | _ => false

/-- Is the event a chunk write? -/
def isWriteEv : Event → Bool
  | Event.write _ _ => true
  | _ => false

/-- Is the event a destination validation? -/
def isValidateEv : Event → Bool
  | Event.validate _ => true
  | _ => false

/-- Is the event a scheduling (`add_task`) or network (`requests.get`)
action? -/
def isScheduleOrNetworkEv : Event → Bool
  | Event.addTask _ _ => true
  | Event.streamOpen _ => true
  | _ => false

/-- Number of stream opens in a trace. -/
def countOpens (tr : List Event) : Nat := tr.countP isOpenEv

/-- Number of stream closes in a trace. -/
def countCloses (tr : List Event) : Nat := tr.countP isCloseEv

/-- Number of chunk writes in a trace. -/
def countWrites (tr : List Event) : Nat := tr.countP isWriteEv

/-- Number of destination validations in a trace. -/
def countValidate (tr : List Event) : Nat := tr.countP isValidateEv

lemma countOpens_append (t1 t2 : List Event) :
    countOpens (t1 ++ t2) = countOpens t1 + countOpens t2 :=
  List.countP_append ..

lemma countCloses_append (t1 t2 : List Event) :
    countCloses (t1 ++ t2) = countCloses t1 + countCloses t2 :=
  List.countP_append ..

lemma countWrites_append (t1 t2 : List Event) :
    countWrites (t1 ++ t2) = countWrites t1 + countWrites t2 :=
  List.countP_append ..

lemma countValidate_append (t1 t2 : List Event) :
    countValidate (t1 ++ t2) = countValidate t1 + countValidate t2 :=
  List.countP_append ..

/-! ### Lemmas about the copy loop -/

/-- Any event count vanishing on chunk writes and progress advances vanishes
on the whole copy-loop trace: those are the only events the loop emits. -/
lemma copyLoop_countP_zero (p : Event → Bool)
    (hw : ∀ pa d, p (Event.write pa d) = false)
    (ha : ∀ t n, p (Event.updateAdvance t n) = false)
    (taskId : Nat) (path : String) (done : Nat → Bool) :
    ∀ chunks i, (copyLoop taskId path done chunks i).1.countP p = 0 := by
  intro chunks
  induction chunks with
  | nil => intro i; simp [copyLoop]
  | cons c rest ih =>
      intro i
      simp only [copyLoop]
      by_cases hd : done i
      · simp [hd, List.countP_cons, hw, ha]
      · simp [hd, List.countP_append, List.countP_cons, hw, ha, ih (i + 1)]

/-- The copy loop emits no stream opens. -/
lemma copyLoop_countOpens (taskId : Nat) (path : String) (done : Nat → Bool)
    (chunks : List String) (i : Nat) :
    countOpens (copyLoop taskId path done chunks i).1 = 0 :=
  copyLoop_countP_zero isOpenEv (fun _ _ => rfl) (fun _ _ => rfl) taskId path done chunks i

/-- The copy loop emits no stream closes. -/
lemma copyLoop_countCloses (taskId : Nat) (path : String) (done : Nat → Bool)
    (chunks : List String) (i : Nat) :
    countCloses (copyLoop taskId path done chunks i).1 = 0 :=
  copyLoop_countP_zero isCloseEv (fun _ _ => rfl) (fun _ _ => rfl) taskId path done chunks i

/-- The copy loop emits no validations. -/
lemma copyLoop_countValidate (taskId : Nat) (path : String) (done : Nat → Bool)
    (chunks : List String) (i : Nat) :
    countValidate (copyLoop taskId path done chunks i).1 = 0 :=
  copyLoop_countP_zero isValidateEv (fun _ _ => rfl) (fun _ _ => rfl) taskId path done chunks i

/-- A loop that ran to stream exhaustion wrote every chunk. -/
lemma copyLoop_writes_all (taskId : Nat) (path : String) (done : Nat → Bool) :
    ∀ chunks i, (copyLoop taskId path done chunks i).2 = false →
      countWrites (copyLoop taskId path done chunks i).1 = chunks.length := by
  intro chunks
  induction chunks with
  | nil => intro i _; simp [copyLoop, countWrites]
  | cons c rest ih =>
      intro i h
      simp only [copyLoop] at h ⊢
      by_cases hd : done i
      · simp [hd] at h
      · simp only [hd, if_false, Bool.false_eq_true] at h ⊢
        have h2 := ih (i + 1) h
        simp only [countWrites, List.countP_append, List.countP_cons] at h2 ⊢
        have e1 : isWriteEv (Event.write path c) = true := rfl
        have e2 : isWriteEv (Event.updateAdvance taskId c.length) = false := rfl
        simp [e1, e2, h2]
        omega

/-- Once the flag reads true at the iteration being executed, the loop writes
at most one further chunk. -/
lemma copyLoop_writes_of_done (taskId : Nat) (path : String) (done : Nat → Bool)
    (chunks : List String) (i : Nat) (hd : done i = true) :
    countWrites (copyLoop taskId path done chunks i).1 ≤ 1 := by
  cases chunks with
  | nil => simp [copyLoop, countWrites]
  | cons c rest =>
      simp only [copyLoop, hd, if_true, countWrites, List.countP_cons, List.countP_nil]
      have e1 : isWriteEv (Event.write path c) = true := rfl
      have e2 : isWriteEv (Event.updateAdvance taskId c.length) = false := rfl
      simp [e1, e2]

/-- With a monotone flag that is set by sample `k`, the loop started at
iteration `i ≤ k` writes at most `k - i + 1` chunks. -/
lemma copyLoop_writes_le (taskId : Nat) (path : String) (done : Nat → Bool)
    (k : Nat) (hk : done k = true) :
    ∀ chunks i, i ≤ k →
      countWrites (copyLoop taskId path done chunks i).1 ≤ (k - i) + 1 := by
  intro chunks
  induction chunks with
  | nil => intro i _; simp [copyLoop, countWrites]
  | cons c rest ih =>
      intro i hik
      simp only [copyLoop]
      by_cases hd : done i
      · simp only [hd, if_true, countWrites, List.countP_cons, List.countP_nil]
        have e1 : isWriteEv (Event.write path c) = true := rfl
        have e2 : isWriteEv (Event.updateAdvance taskId c.length) = false := rfl
        simp [e1, e2]
      · have hik2 : i < k := by
          rcases Nat.eq_or_lt_of_le hik with rfl | h
          · exact absurd hk hd
          · exact h
        simp only [hd, if_false, Bool.false_eq_true]
        have h2 := ih (i + 1) (by omega)
        simp only [countWrites, List.countP_cons, List.countP_append] at h2 ⊢
        have e1 : isWriteEv (Event.write path c) = true := rfl
        have e2 : isWriteEv (Event.updateAdvance taskId c.length) = false := rfl
        simp only [e1, e2, if_true, Bool.false_eq_true, if_false, List.countP_nil]
        omega

/-! ### Stream nesting: at most one stream is open at any instant -/

/-- At every instant (prefix of the trace) the number of streams opened so
far exceeds the number closed by at most one. -/
def streamBound (tr : List Event) : Prop :=
  ∀ pre suf, tr = pre ++ suf → countOpens pre ≤ countCloses pre + 1

/-- The trace opens exactly as many streams as it closes. -/
def streamBalanced (tr : List Event) : Prop := countOpens tr = countCloses tr

lemma streamBound_of_no_open (tr : List Event) (h : countOpens tr = 0) :
    streamBound tr := by
  intro pre suf hsplit
  have hle : countOpens pre ≤ countOpens tr := by
    rw [hsplit, countOpens_append]; omega
  omega

lemma streamBound_append (t1 t2 : List Event) (h1 : streamBound t1)
    (hb : streamBalanced t1) (h2 : streamBound t2) : streamBound (t1 ++ t2) := by
  intro pre suf hsplit
  rcases List.append_eq_append_iff.mp hsplit with ⟨x, hx1, hx2⟩ | ⟨y, hy1, hy2⟩
  · have hx := h2 x suf hx2
    have hopre : countOpens pre = countOpens t1 + countOpens x := by
      rw [hx1, countOpens_append]
    have hcpre : countCloses pre = countCloses t1 + countCloses x := by
      rw [hx1, countCloses_append]
    have hbal : countOpens t1 = countCloses t1 := hb
    omega
  · exact h1 pre y hy1

lemma streamBalanced_append (t1 t2 : List Event) (h1 : streamBalanced t1)
    (h2 : streamBalanced t2) : streamBalanced (t1 ++ t2) := by
  unfold streamBalanced at h1 h2 ⊢
  rw [countOpens_append, countCloses_append, h1, h2]

/-- A trace of the shape `streamOpen u :: mid ++ [streamClose u]` with no
stream events in `mid` keeps at most one stream open and is balanced. -/
lemma streamBound_shape (u : String) (tr mid : List Event)
    (h : tr = Event.streamOpen u :: (mid ++ [Event.streamClose u]))
    (hmo : countOpens mid = 0) (hmc : countCloses mid = 0) :
    streamBound tr ∧ streamBalanced tr := by
  constructor
  · intro pre suf hsplit
    cases pre with
    | nil => simp [countOpens, countCloses]
    | cons e pre2 =>
        rw [h] at hsplit
        have he : e = Event.streamOpen u ∧ mid ++ [Event.streamClose u] = pre2 ++ suf := by
          have := List.cons_eq_cons.mp hsplit
          exact ⟨this.1.symm, this.2⟩
        have hp2 : countOpens pre2 = 0 := by
          have : countOpens (pre2 ++ suf) = countOpens mid + countOpens [Event.streamClose u] := by
            rw [← he.2, countOpens_append]
          rw [countOpens_append] at this
          have hone : countOpens [Event.streamClose u] = 0 := rfl
          omega
        have : countOpens (e :: pre2) = 1 + countOpens pre2 := by
          rw [he.1]
          simp [countOpens, List.countP_cons, isOpenEv]
          omega
        omega
  · unfold streamBalanced
    rw [h]
    simp only [countOpens, countCloses, List.countP_cons, List.countP_append]
    have e1 : isOpenEv (Event.streamOpen u) = true := rfl
    have e2 : isCloseEv (Event.streamOpen u) = false := rfl
    have e3 : isOpenEv (Event.streamClose u) = false := rfl
    have e4 : isCloseEv (Event.streamClose u) = true := rfl
    simp only [countOpens, countCloses] at hmo hmc
    simp [e1, e2, e3, e4, hmo, hmc]


lemma copy_url_body_stream (fs : FS) (r : Rand) (cwd : String) (taskId : Nat)
    (url path : String) (resp : Response) (filename0 : Option String)
    (evs0 : List Event) (done : Nat → Bool) (mid0 : List Event)
    (h0 : evs0 = Event.streamOpen url :: mid0)
    (hmo : countOpens mid0 = 0) (hmc : countCloses mid0 = 0) :
    streamBound (copy_url_body fs r cwd taskId url path resp filename0 evs0 done).trace ∧
      streamBalanced (copy_url_body fs r cwd taskId url path resp filename0 evs0 done).trace := by
  unfold copy_url_body
  cases hr : resolve_step2 fs cwd r filename0 resp.contentType with
  | error e =>
      simp only [hr]
      exact streamBound_shape url _ mid0 (by simp [h0]) hmo hmc
  | ok nm =>
      simp only [hr]
      cases hl : (copyLoop taskId (joinPath path nm.1) done resp.chunks 0).2 with
      | true =>
          simp only [hl, if_true]
          refine streamBound_shape url _
            (mid0 ++ ([Event.updateTotal taskId resp.contentLength,
              Event.fileOpen (joinPath path nm.1), Event.startTask taskId] ++
              ((copyLoop taskId (joinPath path nm.1) done resp.chunks 0).1 ++
                [Event.fileClose (joinPath path nm.1)]))) (by simp [h0]) ?_ ?_
          · simp only [countOpens_append, hmo, copyLoop_countOpens]
            rfl
          · simp only [countCloses_append, hmc, copyLoop_countCloses]
            rfl
      | false =>
          simp only [hl, Bool.false_eq_true, if_false]
          refine streamBound_shape url _
            (mid0 ++ ([Event.updateTotal taskId resp.contentLength,
              Event.fileOpen (joinPath path nm.1), Event.startTask taskId] ++
              ((copyLoop taskId (joinPath path nm.1) done resp.chunks 0).1 ++
                [Event.fileClose (joinPath path nm.1), Event.removeTask taskId,
                 Event.log (doneMsg url (joinPath path nm.1))]))) (by simp [h0]) ?_ ?_
          · simp only [countOpens_append, hmo, copyLoop_countOpens]
            rfl
          · simp only [countCloses_append, hmc, copyLoop_countCloses]
            rfl

lemma copy_url_stream (fs : FS) (r : Rand) (cwd : String) (taskId : Nat)
    (url path : String) (default_filename : Option String) (fetch : Fetch)
    (done : Nat → Bool) :
    streamBound (copy_url fs r cwd taskId url path default_filename fetch done).trace ∧
      streamBalanced (copy_url fs r cwd taskId url path default_filename fetch done).trace := by
  unfold copy_url
  cases fetch with
  | connectionError =>
      exact ⟨streamBound_of_no_open _ rfl, rfl⟩
  | ok resp =>
      cases hd : resp.dispositionParams with
      | none =>
          simp only [hd]
          exact copy_url_body_stream fs r cwd taskId url path resp default_filename
            _ done [] rfl rfl rfl
      | some params =>
          cases hf : filename_from_content_disposition params with
          | error e =>
              simp only [hd, hf]
              exact streamBound_shape url _ [] (by simp) rfl rfl
          | ok fn =>
              simp only [hd, hf]
              exact copy_url_body_stream fs r cwd taskId url path resp (some fn)
                _ done [Event.updateFilename taskId fn] rfl rfl rfl

/-- An element of a list with vanishing count cannot satisfy the counted
predicate. -/
lemma not_mem_of_countP_zero {p : Event → Bool} {tr : List Event}
    (h : tr.countP p = 0) {e : Event} (hp : p e = true) : e ∉ tr := by
  intro hmem
  have := List.countP_eq_zero.mp h e hmem
  simp [hp] at this

/-- Any event count vanishing on every event a task can emit vanishes on a
whole `copy_url_body` trace. -/
lemma copy_url_body_countP_zero (p : Event → Bool)
    (h2 : ∀ u, p (Event.streamClose u) = false)
    (h4 : ∀ t c, p (Event.updateTotal t c) = false)
    (h5 : ∀ pa, p (Event.fileOpen pa) = false)
    (h6 : ∀ t, p (Event.startTask t) = false)
    (h7 : ∀ pa d, p (Event.write pa d) = false)
    (h8 : ∀ t n, p (Event.updateAdvance t n) = false)
    (h9 : ∀ pa, p (Event.fileClose pa) = false)
    (h10 : ∀ t, p (Event.removeTask t) = false)
    (h11 : ∀ m, p (Event.log m) = false)
    (fs : FS) (r : Rand) (cwd : String) (taskId : Nat) (url path : String)
    (resp : Response) (filename0 : Option String) (evs0 : List Event)
    (done : Nat → Bool) (h0 : evs0.countP p = 0) :
    (copy_url_body fs r cwd taskId url path resp filename0 evs0 done).trace.countP p = 0 := by
  unfold copy_url_body
  cases hr : resolve_step2 fs cwd r filename0 resp.contentType with
  | error e =>
      simp only [hr]
      simp [List.countP_append, List.countP_cons, h0, h2]
  | ok nm =>
      simp only [hr]
      have hloop := copyLoop_countP_zero p h7 h8 taskId (joinPath path nm.1) done resp.chunks 0
      cases hl : (copyLoop taskId (joinPath path nm.1) done resp.chunks 0).2 with
      | true =>
          simp only [hl, if_true]
          simp [List.countP_append, List.countP_cons, h0, h2, h4, h5, h6, h9, hloop]
      | false =>
          simp only [hl, Bool.false_eq_true, if_false]
          simp [List.countP_append, List.countP_cons, h0, h2, h4, h5, h6, h9, h10,
            h11, hloop]

/-- Any event count vanishing on every event a task can emit vanishes on a
whole `copy_url` trace.  In particular a task emits no `validate` and no
`addTask` events. -/
lemma copy_url_countP_zero (p : Event → Bool)
    (h1 : ∀ u, p (Event.streamOpen u) = false)
    (h2 : ∀ u, p (Event.streamClose u) = false)
    (h3 : ∀ t fn, p (Event.updateFilename t fn) = false)
    (h4 : ∀ t c, p (Event.updateTotal t c) = false)
    (h5 : ∀ pa, p (Event.fileOpen pa) = false)
    (h6 : ∀ t, p (Event.startTask t) = false)
    (h7 : ∀ pa d, p (Event.write pa d) = false)
    (h8 : ∀ t n, p (Event.updateAdvance t n) = false)
    (h9 : ∀ pa, p (Event.fileClose pa) = false)
    (h10 : ∀ t, p (Event.removeTask t) = false)
    (h11 : ∀ m, p (Event.log m) = false)
    (fs : FS) (r : Rand) (cwd : String) (taskId : Nat) (url path : String)
    (default_filename : Option String) (fetch : Fetch) (done : Nat → Bool) :
    (copy_url fs r cwd taskId url path default_filename fetch done).trace.countP p = 0 := by
  unfold copy_url
  cases fetch with
  | connectionError => simp [List.countP_cons, h10]
  | ok resp =>
      cases hd : resp.dispositionParams with
      | none =>
          simp only [hd]
          exact copy_url_body_countP_zero p h2 h4 h5 h6 h7 h8 h9 h10 h11 fs r cwd
            taskId url path resp default_filename _ done
            (by simp [List.countP_cons, h1])
      | some params =>
          cases hf : filename_from_content_disposition params with
          | error e =>
              simp only [hd, hf]
              simp [List.countP_cons, h1, h2]
          | ok fn =>
              simp only [hd, hf]
              exact copy_url_body_countP_zero p h2 h4 h5 h6 h7 h8 h9 h10 h11 fs r cwd
                taskId url path resp (some fn) _ done
                (by simp [List.countP_cons, h1, h3])

/-- A task emits no destination validations. -/
lemma copy_url_countValidate (fs : FS) (r : Rand) (cwd : String) (taskId : Nat)
    (url path : String) (default_filename : Option String) (fetch : Fetch)
    (done : Nat → Bool) :
    countValidate (copy_url fs r cwd taskId url path default_filename fetch done).trace = 0 :=
  copy_url_countP_zero isValidateEv (fun _ => rfl) (fun _ => rfl) (fun _ _ => rfl)
    (fun _ _ => rfl) (fun _ => rfl) (fun _ => rfl) (fun _ _ => rfl) (fun _ _ => rfl)
    (fun _ => rfl) (fun _ => rfl) (fun _ => rfl) fs r cwd taskId url path
    default_filename fetch done

/-! ### Lemmas about the sequential run -/

lemma runTasks_outcomes_length (cwd dest : String) :
    ∀ specs i fs r, (runTasks cwd dest specs i fs r).outcomes.length = specs.length := by
  intro specs
  induction specs with
  | nil => intro i fs r; rfl
  | cons s rest ih => intro i fs r; simp [runTasks, ih]

lemma runTasks_stream (cwd dest : String) :
    ∀ specs i fs r, streamBound (runTasks cwd dest specs i fs r).trace ∧
      streamBalanced (runTasks cwd dest specs i fs r).trace := by
  intro specs
  induction specs with
  | nil =>
      intro i fs r
      exact ⟨streamBound_of_no_open _ rfl, rfl⟩
  | cons s rest ih =>
      intro i fs r
      have hc := copy_url_stream fs r cwd i s.url dest
        (some (default_filename_of s.urlPath)) s.fetch s.done
      have hr := ih (i + 1) (copy_url fs r cwd i s.url dest
        (some (default_filename_of s.urlPath)) s.fetch s.done).fs
        (copy_url fs r cwd i s.url dest
          (some (default_filename_of s.urlPath)) s.fetch s.done).rand
      exact ⟨streamBound_append _ _ hc.1 hc.2 hr.1, streamBalanced_append _ _ hc.2 hr.2⟩

lemma runTasks_countValidate (cwd dest : String) :
    ∀ specs i fs r, countValidate (runTasks cwd dest specs i fs r).trace = 0 := by
  intro specs
  induction specs with
  | nil => intro i fs r; rfl
  | cons s rest ih =>
      intro i fs r
      simp only [runTasks]
      rw [countValidate_append, copy_url_countValidate, ih]

lemma processResults_countP_zero (p : Event → Bool)
    (hlog : ∀ m, p (Event.log m) = false) :
    ∀ pairs, (processResults pairs).1.countP p = 0 := by
  intro pairs
  induction pairs with
  | nil => rfl
  | cons q tl ih =>
      obtain ⟨url, out⟩ := q
      cases out with
      | success => simpa [processResults] using ih
      | cancelled => simpa [processResults] using ih
      | raised e =>
          cases e with
          | keyError => simp [processResults]
          | attributeError => simp [processResults]
          | connectionError => simp [processResults, List.countP_cons, hlog, ih]
          | destinationDoesNotExist => simp [processResults]
          | destinationIsNotDirectory => simp [processResults]

lemma addTaskEvents_countP_zero (p : Event → Bool)
    (h : ∀ t fn, p (Event.addTask t fn) = false) (specs : List UrlSpec) :
    (((List.range specs.length).zip specs).map
      (fun q => Event.addTask q.1 (default_filename_of q.2.urlPath))).countP p = 0 := by
  refine List.countP_eq_zero.mpr ?_
  intro e he
  rcases List.mem_map.mp he with ⟨q, _, rfl⟩
  simp [h]

/-- The whole run keeps at most one stream open at any instant. -/
lemma download_streamBound (fs : FS) (r : Rand) (cwd dest : String)
    (specs : List UrlSpec) : streamBound (download fs r cwd dest specs).trace := by
  have ha : countOpens (((List.range specs.length).zip specs).map
      (fun p => Event.addTask p.1 (default_filename_of p.2.urlPath))) = 0 :=
    addTaskEvents_countP_zero isOpenEv (fun _ _ => rfl) specs
  have hac : countCloses (((List.range specs.length).zip specs).map
      (fun p => Event.addTask p.1 (default_filename_of p.2.urlPath))) = 0 :=
    addTaskEvents_countP_zero isCloseEv (fun _ _ => rfl) specs
  have hrun := runTasks_stream cwd dest specs 0 fs r
  have hproc : countOpens (processResults
      ((specs.map UrlSpec.url).zip (runTasks cwd dest specs 0 fs r).outcomes)).1 = 0 :=
    processResults_countP_zero isOpenEv (fun _ => rfl) _
  show streamBound ((((List.range specs.length).zip specs).map
      (fun p => Event.addTask p.1 (default_filename_of p.2.urlPath))) ++
    (runTasks cwd dest specs 0 fs r).trace ++ (processResults
      ((specs.map UrlSpec.url).zip (runTasks cwd dest specs 0 fs r).outcomes)).1)
  rw [List.append_assoc]
  refine streamBound_append _ _ (streamBound_of_no_open _ ha) ?_
    (streamBound_append _ _ hrun.1 hrun.2 (streamBound_of_no_open _ hproc))
  unfold streamBalanced
  rw [ha, hac]

/-- The whole `download` call performs no destination validation. -/
lemma download_countValidate (fs : FS) (r : Rand) (cwd dest : String)
    (specs : List UrlSpec) : countValidate (download fs r cwd dest specs).trace = 0 := by
  have h1 : countValidate (((List.range specs.length).zip specs).map
      (fun p => Event.addTask p.1 (default_filename_of p.2.urlPath))) = 0 :=
    addTaskEvents_countP_zero isValidateEv (fun _ _ => rfl) specs
  have h2 : countValidate (processResults
      ((specs.map UrlSpec.url).zip (runTasks cwd dest specs 0 fs r).outcomes)).1 = 0 :=
    processResults_countP_zero isValidateEv (fun _ => rfl) _
  have h3 := runTasks_countValidate cwd dest specs 0 fs r
  show countValidate ((((List.range specs.length).zip specs).map
      (fun p => Event.addTask p.1 (default_filename_of p.2.urlPath))) ++
    (runTasks cwd dest specs 0 fs r).trace ++ (processResults
      ((specs.map UrlSpec.url).zip (runTasks cwd dest specs 0 fs r).outcomes)).1) = 0
  rw [countValidate_append, countValidate_append, h1, h2, h3]

/-! ### Lemmas about probe search and random words -/

lemma findFreeIndex_some (free : Nat → Bool) :
    ∀ count start j, findFreeIndex free start count = some j →
      free j = true ∧ start ≤ j ∧ j < start + count ∧
        ∀ k, start ≤ k → k < j → free k = false := by
  intro count
  induction count with
  | zero => intro start j h; simp [findFreeIndex] at h
  | succ c ih =>
      intro start j h
      simp only [findFreeIndex] at h
      by_cases hf : free start
      · simp only [hf, if_true] at h
        obtain rfl : start = j := Option.some_inj.mp h
        exact ⟨hf, Nat.le_refl _, by omega, fun k hk1 hk2 => absurd hk1 (by omega)⟩
      · simp only [hf, if_false] at h
        obtain ⟨h1, h2, h3, h4⟩ := ih (start + 1) j h
        refine ⟨h1, by omega, by omega, ?_⟩
        intro k hk1 hk2
        rcases Nat.eq_or_lt_of_le hk1 with rfl | hlt
        · exact Bool.not_eq_true _ ▸ by simpa using hf
        · exact h4 k (by omega) hk2

lemma findFreeIndex_none (free : Nat → Bool) :
    ∀ count start, findFreeIndex free start count = none →
      ∀ k, start ≤ k → k < start + count → free k = false := by
  intro count
  induction count with
  | zero => intro start _ k hk1 hk2; omega
  | succ c ih =>
      intro start h k hk1 hk2
      simp only [findFreeIndex] at h
      by_cases hf : free start
      · simp [hf] at h
      · simp only [hf, if_false] at h
        rcases Nat.eq_or_lt_of_le hk1 with rfl | hlt
        · simpa using hf
        · exact ih (start + 1) h k (by omega) (by omega)

lemma findFreeIndex_eq_some (free : Nat → Bool) :
    ∀ count start j, start ≤ j → j < start + count → free j = true →
      (∀ k, start ≤ k → k < j → free k = false) →
      findFreeIndex free start count = some j := by
  intro count
  induction count with
  | zero => intro start j h1 h2; omega
  | succ c ih =>
      intro start j h1 h2 h3 h4
      simp only [findFreeIndex]
      rcases Nat.eq_or_lt_of_le h1 with rfl | hlt
      · simp [h3]
      · have hs : free start = false := h4 start (Nat.le_refl _) hlt
        simp only [hs, Bool.false_eq_true, if_false]
        exact ih (start + 1) j (by omega) (by omega) h3 (fun k hk1 hk2 => h4 k (by omega) hk2)

lemma randomword_length (r : Rand) (n : Nat) : ((randomword r n).1).length = n := by
  simp [randomword, String.length]

lemma randomword_lowercase (r : Rand) (n : Nat) :
    ∀ c ∈ ((randomword r n).1).data, 'a' ≤ c ∧ c ≤ 'z' := by
  intro c hc
  simp only [randomword, String.mk] at hc
  rcases List.mem_map.mp hc with ⟨i, _, rfl⟩
  have h : ∀ j : Fin 26, 'a' ≤ letterOf j ∧ letterOf j ≤ 'z' := by decide
  exact h _

lemma randomword_rand (r : Rand) (n : Nat) :
    (randomword r n).2 = { r with pos := r.pos + n } := rfl

/-! ### Per-task facts inside a run -/

/-- A task whose `requests.get` raises deregisters itself and re-raises. -/
lemma copy_url_connErr (fs : FS) (r : Rand) (cwd : String) (taskId : Nat)
    (url path : String) (default_filename : Option String) (done : Nat → Bool) :
    copy_url fs r cwd taskId url path default_filename Fetch.connectionError done =
      { trace := [Event.removeTask taskId],
        outcome := CopyOutcome.raised PyError.connectionError, fs := fs, rand := r } := rfl

/-- Every branch of `copy_url_body` keeps the already-emitted events at the
head of its trace. -/
lemma copy_url_body_mem (fs : FS) (r : Rand) (cwd : String) (taskId : Nat)
    (url path : String) (resp : Response) (filename0 : Option String)
    (evs0 : List Event) (done : Nat → Bool) (e : Event) (he : e ∈ evs0) :
    e ∈ (copy_url_body fs r cwd taskId url path resp filename0 evs0 done).trace := by
  unfold copy_url_body
  cases hr : resolve_step2 fs cwd r filename0 resp.contentType with
  | error _ =>
      simp only [hr]
      exact List.mem_append_left _ he
  | ok nm =>
      simp only [hr]
      cases hl : (copyLoop taskId (joinPath path nm.1) done resp.chunks 0).2 with
      | true =>
          simp only [hl, if_true]
          exact List.mem_append_left _ (List.mem_append_left _ (List.mem_append_left _ he))
      | false =>
          simp only [hl, Bool.false_eq_true, if_false]
          exact List.mem_append_left _ (List.mem_append_left _ (List.mem_append_left _ he))

/-- A task whose `requests.get` succeeded opened its stream. -/
lemma copy_url_mem_streamOpen (fs : FS) (r : Rand) (cwd : String) (taskId : Nat)
    (url path : String) (default_filename : Option String) (resp : Response)
    (done : Nat → Bool) :
    Event.streamOpen url ∈
      (copy_url fs r cwd taskId url path default_filename (Fetch.ok resp) done).trace := by
  unfold copy_url
  cases hd : resp.dispositionParams with
  | none =>
      simp only [hd]
      exact copy_url_body_mem fs r cwd taskId url path resp default_filename _ done _
        (by simp)
  | some params =>
      cases hf : filename_from_content_disposition params with
      | error e => simp [hd, hf]
      | ok fn =>
          simp only [hd, hf]
          exact copy_url_body_mem fs r cwd taskId url path resp (some fn) _ done _
            (by simp)

lemma runTasks_mem_removeTask (cwd dest : String) :
    ∀ specs base fs r j (hj : j < specs.length),
      (specs.get ⟨j, hj⟩).fetch = Fetch.connectionError →
      Event.removeTask (base + j) ∈ (runTasks cwd dest specs base fs r).trace := by
  intro specs
  induction specs with
  | nil => intro base fs r j hj; simp at hj
  | cons s rest ih =>
      intro base fs r j hj hfail
      cases j with
      | zero =>
          simp only [List.get] at hfail
          simp only [runTasks]
          apply List.mem_append_left
          rw [hfail, copy_url_connErr]
          simp
      | succ j2 =>
          simp only [List.get] at hfail
          simp only [runTasks]
          apply List.mem_append_right
          have := ih (base + 1)
            (copy_url fs r cwd base s.url dest (some (default_filename_of s.urlPath))
              s.fetch s.done).fs
            (copy_url fs r cwd base s.url dest (some (default_filename_of s.urlPath))
              s.fetch s.done).rand
            j2 (by simpa using Nat.lt_of_succ_lt_succ hj) hfail
          have harith : base + 1 + j2 = base + (j2 + 1) := by omega
          rw [harith] at this
          exact this

lemma runTasks_mem_streamOpen (cwd dest : String) :
    ∀ specs base fs r j (hj : j < specs.length) resp,
      (specs.get ⟨j, hj⟩).fetch = Fetch.ok resp →
      Event.streamOpen (specs.get ⟨j, hj⟩).url ∈ (runTasks cwd dest specs base fs r).trace := by
  intro specs
  induction specs with
  | nil => intro base fs r j hj; simp at hj
  | cons s rest ih =>
      intro base fs r j hj resp hok
      cases j with
      | zero =>
          simp only [List.get] at hok ⊢
          simp only [runTasks]
          apply List.mem_append_left
          rw [hok]
          exact copy_url_mem_streamOpen fs r cwd base s.url dest
            (some (default_filename_of s.urlPath)) resp s.done
      | succ j2 =>
          simp only [List.get] at hok ⊢
          simp only [runTasks]
          apply List.mem_append_right
          exact ih (base + 1) _ _ j2 (by simpa using Nat.lt_of_succ_lt_succ hj) resp hok

lemma runTasks_get?_connErr (cwd dest : String) :
    ∀ specs base fs r j (hj : j < specs.length),
      (specs.get ⟨j, hj⟩).fetch = Fetch.connectionError →
      (runTasks cwd dest specs base fs r).outcomes.get? j =
        some (CopyOutcome.raised PyError.connectionError) := by
  intro specs
  induction specs with
  | nil => intro base fs r j hj; simp at hj
  | cons s rest ih =>
      intro base fs r j hj hfail
      cases j with
      | zero =>
          simp only [List.get] at hfail
          simp only [runTasks]
          rw [hfail, copy_url_connErr]
          rfl
      | succ j2 =>
          simp only [List.get] at hfail
          simp only [runTasks]
          exact ih (base + 1) _ _ j2 (by simpa using Nat.lt_of_succ_lt_succ hj) hfail

/-- An outcome the result-processing loop survives: anything but a raise of a
non-`ConnectionError` exception. -/
def benign : CopyOutcome → Bool
  | CopyOutcome.raised PyError.connectionError => true
  | CopyOutcome.raised _ => false
  | _ => true

lemma processResults_mem_log :
    ∀ pairs, (∀ q ∈ pairs, benign q.2 = true) →
      ∀ url out, (url, out) ∈ pairs → out = CopyOutcome.raised PyError.connectionError →
      Event.log (failMsg url) ∈ (processResults pairs).1 := by
  intro pairs
  induction pairs with
  | nil => intro _ url out h; simp at h
  | cons q tl ih =>
      intro hben url out hmem hconn
      obtain ⟨u0, o0⟩ := q
      rcases List.mem_cons.mp hmem with heq | htl
      · obtain ⟨rfl, rfl⟩ := Prod.mk.injEq .. ▸ Prod.ext_iff.mp heq
        rw [hconn]
        simp [processResults]
      · have hb0 : benign o0 = true := hben (u0, o0) (by simp)
        have htail : ∀ q2 ∈ tl, benign q2.2 = true := fun q2 hq2 => hben q2 (by simp [hq2])
        have hres := ih htail url out htl hconn
        cases o0 with
        | success => simpa [processResults] using hres
        | cancelled => simpa [processResults] using hres
        | raised e =>
            cases e with
            | connectionError => simp [processResults, hres]
            | keyError => simp [benign] at hb0
            | attributeError => simp [benign] at hb0
            | destinationDoesNotExist => simp [benign] at hb0
            | destinationIsNotDirectory => simp [benign] at hb0

lemma mem_zip_of_get? {A B : Type} (as : List A) (bs : List B) :
    ∀ j a b, as.get? j = some a → bs.get? j = some b → (a, b) ∈ as.zip bs := by
  induction as generalizing bs with
  | nil => intro j a b h; simp at h
  | cons a0 atl ih =>
      intro j a b ha hb
      cases bs with
      | nil => simp at hb
      | cons b0 btl =>
          cases j with
          | zero =>
              obtain rfl : a0 = a := by simpa using ha
              obtain rfl : b0 = b := by simpa using hb
              simp [List.zip]
          | succ j2 =>
              have := ih btl j2 a b (by simpa using ha) (by simpa using hb)
              simp [List.zip] at this ⊢
              exact Or.inr this

/-! ### Concrete fixtures used by counterexamples and witnesses -/

/-- A deterministic random stream: draw `n` yields letter `n % 26`. -/
def rand0 : Rand := { choice := fun n => ⟨n % 26, Nat.mod_lt _ (by norm_num)⟩, pos := 0 }

/-- An empty filesystem. -/
def fsEmpty : FS :=
  { pathExists := fun _ => false, isDir := fun _ => false, isFile := fun _ => false }

/-- A cancellation flag that is never set. -/
def neverDone : Nat → Bool := fun _ => false

/-- A cancellation flag that was set before the task started. -/
def alwaysDone : Nat → Bool := fun _ => true

/-- A filesystem holding exactly the file `/dest/report.pdf`. -/
def fsRpt : FS :=
  { pathExists := fun p => p == "/dest/report.pdf", isDir := fun p => p == "/dest",
    isFile := fun p => p == "/dest/report.pdf" }

/-- A response whose disposition header names `report.pdf`. -/
def respRpt : Response :=
  { dispositionParams := some [("filename", "report.pdf")],
    contentType := some "text/plain", contentLength := some 1, chunks := ["z"] }

/-- A filesystem holding exactly the file `/dest/index.txt`. -/
def fsDestTxt : FS :=
  { pathExists := fun p => p == "/dest/index.txt", isDir := fun p => p == "/dest",
    isFile := fun p => p == "/dest/index.txt" }

/-- A filesystem holding exactly the file `/d/index.txt`. -/
def fsCwdTxt : FS :=
  { pathExists := fun p => p == "/d/index.txt", isDir := fun p => p == "/d",
    isFile := fun p => p == "/d/index.txt" }

/-- A response with a disposition header whose parameters lack `filename`. -/
def respNoFn : Response :=
  { dispositionParams := some [("size", "100")],
    contentType := some "text/plain", contentLength := some 1, chunks := ["z"] }

/-- A response with no Content-Type header at all. -/
def respNoCT : Response :=
  { dispositionParams := none, contentType := none, contentLength := none,
    chunks := [] }

/-! ### Reduction lemmas for the resolver -/

/-- With no disposition header and no URL-derived name, resolution is the
content-type branch. -/
lemma resolve_filename_ct (fs : FS) (cwd : String) (r : Rand) (ct : Option String) :
    resolve_filename fs cwd r none none ct = resolve_from_content_type fs cwd r ct := rfl

/-- A known extension sends the content-type branch through
`find_next_filename` on `index.<ext>`. -/
lemma resolve_from_ct_known (fs : FS) (cwd : String) (r : Rand) (ct ext : String)
    (hext : guess_extension (takeUntilSemicolon ct) = some ext) :
    resolve_from_content_type fs cwd r (some ct) =
      Except.ok (find_next_filename fs cwd r ("index" ++ ext)) := by
  simp only [resolve_from_content_type]
  rw [hext]

/-- An unknown MIME type sends the content-type branch to the random-suffix
fallback. -/
lemma resolve_from_ct_unknown (fs : FS) (cwd : String) (r : Rand) (ct : String)
    (hct : guess_extension (takeUntilSemicolon ct) = none) :
    resolve_from_content_type fs cwd r (some ct) =
      Except.ok ("index.bin." ++ (randomword r 12).1, (randomword r 12).2) := by
  simp only [resolve_from_content_type]
  rw [hct]

/-! ### C1 -/

/-- C1, counterexample.  The claim says a file already existing at the
resolved destination path is never overwritten regardless of the naming
branch.  On the disposition branch the name is used verbatim: with
`/dest/report.pdf` already on disk and a response whose disposition header
names `report.pdf`, the task opens the pre-existing `/dest/report.pdf` with
mode `"wb"` (truncating it) and completes successfully. -/
theorem C1_overwrite_cex :
    fsRpt.isFile "/dest/report.pdf" = true ∧
    Event.fileOpen "/dest/report.pdf" ∈
      (copy_url fsRpt rand0 "/cwd" 0 "http://u/f" "/dest" (some "f")
        (Fetch.ok respRpt) neverDone).trace ∧
    (copy_url fsRpt rand0 "/cwd" 0 "http://u/f" "/dest" (some "f")
      (Fetch.ok respRpt) neverDone).outcome = CopyOutcome.success := by
  refine ⟨rfl, ?_, rfl⟩
  decide

/-- C1, amended.  Only the content-type-derived branch avoids collisions, and
its probes test the name against the current working directory: whenever the
candidate `index.<ext>` or one of the numbered probes `index.<ext>.1` ..
`index.<ext>.999` is free there, the resolved name is not an existing file
(per that cwd-relative check).  Disposition- and URL-derived names are used
verbatim and may overwrite. -/
theorem C1_content_type_no_overwrite (fs : FS) (cwd : String) (r : Rand)
    (ct ext n : String) (r2 : Rand)
    (hext : guess_extension (takeUntilSemicolon ct) = some ext)
    (hfree : os_isfile fs cwd ("index" ++ ext) = false ∨
      ∃ i, 1 ≤ i ∧ i ≤ 999 ∧ os_isfile fs cwd (probeName ("index" ++ ext) i) = false)
    (hres : resolve_filename fs cwd r none none (some ct) = Except.ok (n, r2)) :
    os_isfile fs cwd n = false := by
  rw [resolve_filename_ct, resolve_from_ct_known fs cwd r ct ext hext] at hres
  have hn : (find_next_filename fs cwd r ("index" ++ ext)).1 = n := by
    have := Except.ok.inj hres
    exact congrArg Prod.fst this
  subst hn
  unfold find_next_filename
  by_cases h0 : os_isfile fs cwd ("index" ++ ext) = false
  · rw [if_pos h0]
    exact h0
  · rw [if_neg h0]
    cases hfi : findFreeIndex
        (fun i => !os_isfile fs cwd (probeName ("index" ++ ext) i)) 1 999 with
    | some i =>
        have hspec := findFreeIndex_some _ 999 1 i hfi
        simpa using hspec.1
    | none =>
        exfalso
        rcases hfree with hc | ⟨i, hi1, hi2, hi3⟩
        · exact h0 hc
        · have := findFreeIndex_none _ 999 1 hfi i hi1 (by omega)
          simp [hi3] at this

/-- C1, witness for the amended theorem: with only `/d/index.txt` present and
the process running in `/d`, the `text/plain` resolution yields a name that
is not an existing file. -/
theorem C1_content_type_no_overwrite_witness :
    guess_extension (takeUntilSemicolon "text/plain") = some ".txt" ∧
    os_isfile fsCwdTxt "/d" "index.txt.1" = false :=
  ⟨rfl, C1_content_type_no_overwrite fsCwdTxt "/d" rand0 "text/plain" ".txt"
    "index.txt.1" rand0 rfl (Or.inr ⟨1, by norm_num, by norm_num, rfl⟩) rfl⟩

/-! ### C2 -/

/-- C2, counterexample.  The claim says that when the content-type-derived
candidate exists in the destination directory the result is the first free
numbered probe.  The probes actually run `os.path.isfile` on the bare name,
which resolves against the process cwd, not the destination: with
`/dest/index.txt` on disk, cwd `/cwd` and destination `/dest`, resolution
returns `index.txt` unchanged instead of `index.txt.1`. -/
theorem C2_probe_dir_cex :
    fsDestTxt.isFile (joinPath "/dest" "index.txt") = true ∧
    resolve_filename fsDestTxt "/cwd" rand0 none none (some "text/plain") =
      Except.ok ("index.txt", rand0) ∧
    ("index.txt" : String) ≠ "index.txt.1" :=
  ⟨rfl, rfl, by decide⟩

/-- C2, amended.  The existence probes run against the process current
working directory (which is the destination only in the default `--dest .`
case).  Probing against that directory: a free candidate is returned
unchanged; an occupied candidate yields the first free probe `index.txt.j`
with `1 ≤ j ≤ 999`; if the candidate and all 999 probes are occupied the
result is `index.txt.` followed by 16 random lowercase letters (so at least
12) and no exception is raised — the branch always returns a value. -/
theorem C2_collision_probing (fs : FS) (d : String) (r : Rand) :
    (∃ p, resolve_filename fs d r none none (some "text/plain") = Except.ok p) ∧
    (os_isfile fs d "index.txt" = false →
      resolve_filename fs d r none none (some "text/plain") =
        Except.ok ("index.txt", r)) ∧
    (∀ j, os_isfile fs d "index.txt" = true → 1 ≤ j → j ≤ 999 →
      os_isfile fs d (probeName "index.txt" j) = false →
      (∀ k, 1 ≤ k → k < j → os_isfile fs d (probeName "index.txt" k) = true) →
      resolve_filename fs d r none none (some "text/plain") =
        Except.ok (probeName "index.txt" j, r)) ∧
    (os_isfile fs d "index.txt" = true →
      (∀ k, 1 ≤ k → k ≤ 999 → os_isfile fs d (probeName "index.txt" k) = true) →
      ∃ w, resolve_filename fs d r none none (some "text/plain") =
          Except.ok ("index.txt." ++ w, { r with pos := r.pos + 16 }) ∧
        w.length = 16 ∧ ∀ c ∈ w.data, 'a' ≤ c ∧ c ≤ 'z') := by
  have hres : resolve_filename fs d r none none (some "text/plain") =
      Except.ok (find_next_filename fs d r "index.txt") := rfl
  refine ⟨⟨find_next_filename fs d r "index.txt", hres⟩, ?_, ?_, ?_⟩
  · intro h0
    rw [hres]
    unfold find_next_filename
    rw [if_pos h0]
  · intro j hocc hj1 hj2 hjfree hleast
    rw [hres]
    unfold find_next_filename
    rw [if_neg (by simp [hocc])]
    have : findFreeIndex (fun i => !os_isfile fs d (probeName "index.txt" i)) 1 999 =
        some j := by
      refine findFreeIndex_eq_some _ 999 1 j hj1 (by omega) (by simp [hjfree]) ?_
      intro k hk1 hk2
      simp [hleast k hk1 hk2]
    rw [this]
  · intro hocc hall
    rw [hres]
    unfold find_next_filename
    rw [if_neg (by simp [hocc])]
    have : findFreeIndex (fun i => !os_isfile fs d (probeName "index.txt" i)) 1 999 =
        none := by
      cases hfi : findFreeIndex (fun i => !os_isfile fs d (probeName "index.txt" i))
          1 999 with
      | none => rfl
      | some i =>
          exfalso
          have hspec := findFreeIndex_some _ 999 1 i hfi
          have := hall i hspec.2.1 (by omega)
          simp [this] at hspec
    rw [this]
    exact ⟨(randomword r 16).1, rfl, randomword_length r 16, randomword_lowercase r 16⟩

/-- C2, witness for the amended theorem: with an empty cwd the candidate is
returned unchanged. -/
theorem C2_collision_probing_witness :
    resolve_filename fsEmpty "/d" rand0 none none (some "text/plain") =
      Except.ok ("index.txt", rand0) :=
  (C2_collision_probing fsEmpty "/d" rand0).2.1 rfl

/-! ### C3 -/

/-- C3, counterexample.  The claim says a disposition header whose parsed
parameters lack a filename is treated as absent and resolution falls through
to the URL-derived name.  In fact `params["filename"]` raises `KeyError`,
which propagates out of the task: with parameters `[("size", "100")]` and the
URL-derived fallback `data.csv` available, the task raises instead of using
`data.csv`, and never opens an output file. -/
theorem C3_keyError_cex :
    (copy_url fsEmpty rand0 "/cwd" 0 "http://u/data.csv" "/dest" (some "data.csv")
        (Fetch.ok respNoFn) neverDone).outcome = CopyOutcome.raised PyError.keyError ∧
    (copy_url fsEmpty rand0 "/cwd" 0 "http://u/data.csv" "/dest" (some "data.csv")
        (Fetch.ok respNoFn) neverDone).trace =
      [Event.streamOpen "http://u/data.csv", Event.streamClose "http://u/data.csv"] :=
  ⟨rfl, rfl⟩

/-- C3, amended.  A present disposition header whose parsed parameters lack a
`filename` parameter makes the task raise `KeyError`; the header is not
treated as absent and no fallback naming strategy runs. -/
theorem C3_keyError_propagates (fs : FS) (r : Rand) (cwd : String) (taskId : Nat)
    (url path : String) (df : Option String) (resp : Response)
    (params : List (String × String)) (done : Nat → Bool)
    (hd : resp.dispositionParams = some params)
    (hnofn : dictLookup params "filename" = none) :
    (copy_url fs r cwd taskId url path df (Fetch.ok resp) done).outcome =
      CopyOutcome.raised PyError.keyError := by
  have hf : filename_from_content_disposition params = Except.error PyError.keyError := by
    simp only [filename_from_content_disposition]
    rw [hnofn]
  unfold copy_url
  simp only [hd, hf]

/-- C3, witness for the amended theorem at the concrete fixture. -/
theorem C3_keyError_propagates_witness :
    (copy_url fsEmpty rand0 "/cwd" 0 "http://u/data.csv" "/dest" (some "data.csv")
        (Fetch.ok respNoFn) neverDone).outcome = CopyOutcome.raised PyError.keyError :=
  C3_keyError_propagates fsEmpty rand0 "/cwd" 0 "http://u/data.csv" "/dest"
    (some "data.csv") respNoFn [("size", "100")] neverDone rfl rfl

/-! ### C4 -/

/-- C4, counterexample.  The claim says a response reaching the content-type
branch with no Content-Type header at all still resolves to
`index.bin.<random>` without failing.  In fact
`response.headers.get("Content-Type")` is `None` and `.split(";")` on it
raises `AttributeError`, which escapes the resolution step and the task. -/
theorem C4_missing_content_type_cex :
    resolve_filename fsEmpty "/cwd" rand0 none none none =
      Except.error PyError.attributeError ∧
    (copy_url fsEmpty rand0 "/cwd" 0 "http://u" "/dest" (some "")
        (Fetch.ok respNoCT) neverDone).outcome =
      CopyOutcome.raised PyError.attributeError :=
  ⟨rfl, rfl⟩

/-- C4, amended.  A response reaching the content-type branch with a present
content type whose MIME type has no known extension mapping resolves to
`index.bin.` followed by 12 random lowercase letters, with no exception; a
response with no Content-Type header at all raises `AttributeError` instead
of falling back. -/
theorem C4_random_fallback (fs : FS) (cwd : String) (r : Rand) :
    (resolve_filename fs cwd r none none none = Except.error PyError.attributeError) ∧
    (∀ ct, guess_extension (takeUntilSemicolon ct) = none →
      ∃ w, resolve_filename fs cwd r none none (some ct) =
          Except.ok ("index.bin." ++ w, { r with pos := r.pos + 12 }) ∧
        w.length = 12 ∧ ∀ c ∈ w.data, 'a' ≤ c ∧ c ≤ 'z') := by
  refine ⟨rfl, ?_⟩
  intro ct hct
  refine ⟨(randomword r 12).1, ?_, randomword_length r 12, randomword_lowercase r 12⟩
  rw [resolve_filename_ct, resolve_from_ct_unknown fs cwd r ct hct, randomword_rand]

/-- C4, witness for the amended theorem at a concrete unknown MIME type. -/
theorem C4_random_fallback_witness :
    ∃ w, resolve_filename fsEmpty "/d" rand0 none none (some "application/x-unknown") =
        Except.ok ("index.bin." ++ w, { rand0 with pos := rand0.pos + 12 }) ∧
      w.length = 12 ∧ ∀ c ∈ w.data, 'a' ≤ c ∧ c ≤ 'z' :=
  (C4_random_fallback fsEmpty "/d" rand0).2 "application/x-unknown" rfl

/-! ### C8 -/

/-- C8, counterexample.  The claim says resolution is deterministic across
repeated calls including the random-suffix branches.  The random branches
advance the global random state: resolving the same inputs twice in
succession yields two different names. -/
theorem C8_random_twice_cex :
    resolve_filename fsEmpty "/d" rand0 none none (some "application/x-foo") =
      Except.ok ("index.bin.abcdefghijkl", { choice := rand0.choice, pos := 12 }) ∧
    resolve_filename fsEmpty "/d" { choice := rand0.choice, pos := 12 } none none
        (some "application/x-foo") =
      Except.ok ("index.bin.mnopqrstuvwx", { choice := rand0.choice, pos := 24 }) ∧
    ("index.bin.abcdefghijkl" : String) ≠ "index.bin.mnopqrstuvwx" :=
  ⟨rfl, rfl, by decide⟩

/-- Branches of `find_next_filename` that do not draw randomness give the
same name for any random state. -/
lemma find_next_filename_det (fs : FS) (cwd : String) (r1 r2 : Rand)
    (fn n : String) (h : find_next_filename fs cwd r1 fn = (n, r1)) :
    find_next_filename fs cwd r2 fn = (n, r2) := by
  unfold find_next_filename at h ⊢
  by_cases h0 : os_isfile fs cwd fn = false
  · rw [if_pos h0] at h ⊢
    obtain rfl : fn = n := congrArg Prod.fst h
    rfl
  · rw [if_neg h0] at h ⊢
    cases hfi : findFreeIndex (fun i => !os_isfile fs cwd (probeName fn i)) 1 999 with
    | some i =>
        rw [hfi] at h
        obtain rfl : probeName fn i = n := congrArg Prod.fst h
        rfl
    | none =>
        exfalso
        rw [hfi] at h
        have hrand : (randomword r1 16).2 = r1 := congrArg Prod.snd h
        rw [randomword_rand] at hrand
        have hpos := congrArg Rand.pos hrand
        simp at hpos

/-- The non-drawing cases of the content-type branch give the same name for
any random state. -/
lemma resolve_from_ct_det (fs : FS) (cwd : String) (r1 r2 : Rand)
    (ct : Option String) (n : String)
    (h : resolve_from_content_type fs cwd r1 ct = Except.ok (n, r1)) :
    resolve_from_content_type fs cwd r2 ct = Except.ok (n, r2) := by
  cases ct with
  | none => exact absurd h (by simp [resolve_from_content_type])
  | some c =>
      cases hg : guess_extension (takeUntilSemicolon c) with
      | some ext =>
          rw [resolve_from_ct_known fs cwd r1 c ext hg] at h
          rw [resolve_from_ct_known fs cwd r2 c ext hg]
          have hname := find_next_filename_det fs cwd r1 r2 ("index" ++ ext) n
            (Except.ok.inj h)
          rw [hname]
      | none =>
          exfalso
          rw [resolve_from_ct_unknown fs cwd r1 c hg] at h
          have hrand := congrArg Prod.snd (Except.ok.inj h)
          rw [randomword_rand] at hrand
          have hpos := congrArg Rand.pos hrand
          simp at hpos

/-- The non-drawing cases of the truthiness step give the same name for any
random state. -/
lemma resolve_step2_det (fs : FS) (cwd : String) (r1 r2 : Rand)
    (f : Option String) (ct : Option String) (n : String)
    (h : resolve_step2 fs cwd r1 f ct = Except.ok (n, r1)) :
    resolve_step2 fs cwd r2 f ct = Except.ok (n, r2) := by
  cases f with
  | none =>
      simp only [resolve_step2] at h ⊢
      exact resolve_from_ct_det fs cwd r1 r2 ct n h
  | some s =>
      simp only [resolve_step2] at h ⊢
      by_cases he : s.data.isEmpty
      · rw [if_pos he] at h ⊢
        exact resolve_from_ct_det fs cwd r1 r2 ct n h
      · rw [if_neg he] at h ⊢
        obtain rfl : s = n := congrArg Prod.fst (Except.ok.inj h)
        rfl

/-- C8, amended.  Resolution that takes a deterministic branch — one that
returns without consuming the global random state — yields the same name for
the same inputs against an unchanged directory, whatever the random state;
the random-suffix branches consume the state and generally differ across
calls. -/
theorem C8_deterministic_branches (fs : FS) (cwd : String) (r1 r2 : Rand)
    (dp : Option (List (String × String))) (df : Option String)
    (ct : Option String) (n : String)
    (h : resolve_filename fs cwd r1 dp df ct = Except.ok (n, r1)) :
    resolve_filename fs cwd r2 dp df ct = Except.ok (n, r2) := by
  cases dp with
  | none =>
      simp only [resolve_filename] at h ⊢
      exact resolve_step2_det fs cwd r1 r2 df ct n h
  | some params =>
      simp only [resolve_filename] at h ⊢
      cases hf : filename_from_content_disposition params with
      | error e =>
          rw [hf] at h
          exact absurd h (by simp)
      | ok fn =>
          rw [hf] at h
          exact resolve_step2_det fs cwd r1 r2 (some fn) ct n h

/-- C8, witness for the amended theorem: the URL-derived branch gives the
same name from two different random states. -/
theorem C8_deterministic_branches_witness :
    resolve_filename fsEmpty "/d" { choice := rand0.choice, pos := 7 } none
        (some "data.csv") (some "text/plain") =
      Except.ok ("data.csv", { choice := rand0.choice, pos := 7 }) :=
  C8_deterministic_branches fsEmpty "/d" rand0 { choice := rand0.choice, pos := 7 }
    none (some "data.csv") (some "text/plain") "data.csv" rfl

/-! ### C5 -/

/-- C5.  The run validates the destination exactly once, before anything
else: a missing destination makes the run raise `DestinationDoesNotExist`
with nothing but the validation in its trace, a non-directory destination
raises `DestinationIsNotDirectory` likewise, in both cases no task is
scheduled and no network activity occurs, and in every run the validation
happens exactly once regardless of the number of URLs. -/
theorem C5_validate_first_and_once (fs : FS) (r : Rand) (cwd destArg : String)
    (specs : List UrlSpec) :
    (fs.pathExists destArg = false →
      run_main fs r cwd destArg specs =
        ([Event.validate destArg], Except.error PyError.destinationDoesNotExist)) ∧
    (fs.pathExists destArg = true → fs.isDir destArg = false →
      run_main fs r cwd destArg specs =
        ([Event.validate destArg], Except.error PyError.destinationIsNotDirectory)) ∧
    ((fs.pathExists destArg = false ∨ fs.isDir destArg = false) →
      ∀ e ∈ (run_main fs r cwd destArg specs).1, isScheduleOrNetworkEv e = false) ∧
    countValidate (run_main fs r cwd destArg specs).1 = 1 := by
  cases hex : fs.pathExists destArg with
  | false =>
      have hrun : run_main fs r cwd destArg specs =
          ([Event.validate destArg], Except.error PyError.destinationDoesNotExist) := by
        simp [run_main, directory_path, hex]
      refine ⟨fun _ => hrun, fun h1 _ => absurd h1 (by simp [hex]), ?_, ?_⟩
      · intro _ e he
        rw [hrun] at he
        rcases List.mem_singleton.mp he with rfl
        rfl
      · rw [hrun]
        rfl
  | true =>
      cases hdir : fs.isDir destArg with
      | false =>
          have hrun : run_main fs r cwd destArg specs =
              ([Event.validate destArg], Except.error PyError.destinationIsNotDirectory) := by
            simp [run_main, directory_path, hex, hdir]
          refine ⟨fun h1 => absurd h1 (by simp [hex]), fun _ _ => hrun, ?_, ?_⟩
          · intro _ e he
            rw [hrun] at he
            rcases List.mem_singleton.mp he with rfl
            rfl
          · rw [hrun]
            rfl
      | true =>
          have hrun : run_main fs r cwd destArg specs =
              (Event.validate destArg :: (download fs r cwd destArg specs).trace,
                Except.ok (download fs r cwd destArg specs)) := by
            simp [run_main, directory_path, hex, hdir]
          refine ⟨fun h1 => absurd h1 (by simp [hex]), fun _ h2 => absurd h2 (by simp [hdir]),
            ?_, ?_⟩
          · intro hor
            rcases hor with h1 | h2
            · exact absurd h1 (by simp [hex])
            · exact absurd h2 (by simp [hdir])
          · rw [hrun]
            show countValidate (Event.validate destArg ::
              (download fs r cwd destArg specs).trace) = 1
            unfold countValidate
            rw [List.countP_cons]
            have hz := download_countValidate fs r cwd destArg specs
            unfold countValidate at hz
            simp [hz, isValidateEv]

/-- C5, witness: a missing destination fails fast on a two-URL run. -/
theorem C5_validate_first_and_once_witness :
    run_main fsEmpty rand0 "/cwd" "/nowhere" [] =
      ([Event.validate "/nowhere"], Except.error PyError.destinationDoesNotExist) :=
  (C5_validate_first_and_once fsEmpty rand0 "/cwd" "/nowhere" []).1 rfl

/-! ### C6 -/

/-- A response used by cancellation fixtures: one two-byte chunk. -/
def respC6 : Response :=
  { dispositionParams := none, contentType := some "text/plain",
    contentLength := some 2, chunks := ["ab"] }

/-- C6, counterexample.  The claim says the cancellation flag is checked
before each chunk write, that no chunk is written after the flag is set, and
that a task that had not yet begun writing never begins.  The loop actually
writes first and checks afterwards: with the flag set before the task even
starts, the task still opens its file, writes its first chunk, and only then
stops. -/
theorem C6_write_after_signal_cex :
    alwaysDone 0 = true ∧
    Event.write (joinPath "/d" "x.bin") "ab" ∈
      (copy_url fsEmpty rand0 "/cwd" 0 "http://u/x.bin" "/d" (some "x.bin")
        (Fetch.ok respC6) alwaysDone).trace ∧
    (copy_url fsEmpty rand0 "/cwd" 0 "http://u/x.bin" "/d" (some "x.bin")
      (Fetch.ok respC6) alwaysDone).outcome = CopyOutcome.cancelled := by
  refine ⟨rfl, ?_, rfl⟩
  decide

lemma copy_url_body_writes_le (fs : FS) (r : Rand) (cwd : String) (taskId : Nat)
    (url path : String) (resp : Response) (filename0 : Option String)
    (evs0 : List Event) (done : Nat → Bool) (k : Nat)
    (h0 : countWrites evs0 = 0) (hk : done k = true) :
    countWrites (copy_url_body fs r cwd taskId url path resp filename0 evs0 done).trace ≤
      k + 1 := by
  unfold copy_url_body
  cases hr : resolve_step2 fs cwd r filename0 resp.contentType with
  | error e =>
      simp only [hr]
      rw [countWrites_append, h0]
      exact Nat.zero_le (k + 1)
  | ok nm =>
      simp only [hr]
      have hloop := copyLoop_writes_le taskId (joinPath path nm.1) done k hk
        resp.chunks 0 (Nat.zero_le k)
      cases hl : (copyLoop taskId (joinPath path nm.1) done resp.chunks 0).2 with
      | true =>
          simp only [hl, if_true]
          rw [countWrites_append, countWrites_append, countWrites_append, h0]
          have h1 : countWrites [Event.updateTotal taskId resp.contentLength,
            Event.fileOpen (joinPath path nm.1), Event.startTask taskId] = 0 := rfl
          have h2 : countWrites [Event.fileClose (joinPath path nm.1),
            Event.streamClose url] = 0 := rfl
          rw [h1, h2]
          omega
      | false =>
          simp only [hl, Bool.false_eq_true, if_false]
          rw [countWrites_append, countWrites_append, countWrites_append, h0]
          have h1 : countWrites [Event.updateTotal taskId resp.contentLength,
            Event.fileOpen (joinPath path nm.1), Event.startTask taskId] = 0 := rfl
          have h2 : countWrites [Event.fileClose (joinPath path nm.1),
            Event.removeTask taskId, Event.log (doneMsg url (joinPath path nm.1)),
            Event.streamClose url] = 0 := rfl
          rw [h1, h2]
          omega

/-- C6, amended.  The flag is sampled after each chunk write, not before:
with a set-once (monotone) flag that reads true at its k-th sample, a copier
writes at most k + 1 chunks — it stops before the write that would follow
the sample that observed the flag, and a task starting with the flag already
set still writes up to one chunk. -/
theorem C6_stop_after_one_more_chunk (fs : FS) (r : Rand) (cwd : String)
    (taskId : Nat) (url path : String) (df : Option String) (fetch : Fetch)
    (done : Nat → Bool) (k : Nat)
    (_hmono : ∀ m n, m ≤ n → done m = true → done n = true) (hk : done k = true) :
    countWrites (copy_url fs r cwd taskId url path df fetch done).trace ≤ k + 1 := by
  unfold copy_url
  cases fetch with
  | connectionError => exact Nat.zero_le (k + 1)
  | ok resp =>
      cases hd : resp.dispositionParams with
      | none =>
          simp only [hd]
          exact copy_url_body_writes_le fs r cwd taskId url path resp df _ done k rfl hk
      | some params =>
          cases hf : filename_from_content_disposition params with
          | error e =>
              simp only [hd, hf]
              exact Nat.zero_le (k + 1)
          | ok fn =>
              simp only [hd, hf]
              exact copy_url_body_writes_le fs r cwd taskId url path resp (some fn)
                _ done k rfl hk

/-- C6, witness for the amended theorem: a task whose flag was set before it
started writes at most one chunk. -/
theorem C6_stop_after_one_more_chunk_witness :
    countWrites (copy_url fsEmpty rand0 "/cwd" 0 "http://u/x.bin" "/d"
      (some "x.bin") (Fetch.ok respC6) alwaysDone).trace ≤ 1 :=
  C6_stop_after_one_more_chunk fsEmpty rand0 "/cwd" 0 "http://u/x.bin" "/d"
    (some "x.bin") (Fetch.ok respC6) alwaysDone 0 (fun _ _ _ h => h) rfl

/-! ### C9 -/

/-- C9.  With the pool fixed at one worker, at every instant of a run — that
is, at every prefix of the run's event trace — the number of response
streams opened so far exceeds the number closed by at most one: at most one
stream is open simultaneously, whatever the number of URLs. -/
theorem C9_at_most_one_open_stream (fs : FS) (r : Rand) (cwd dest : String)
    (specs : List UrlSpec) (pre suf : List Event)
    (hsplit : (download fs r cwd dest specs).trace = pre ++ suf) :
    countOpens pre ≤ countCloses pre + 1 :=
  download_streamBound fs r cwd dest specs pre suf hsplit

/-- A one-URL spec that succeeds, used by run-level witnesses. -/
def specA : UrlSpec :=
  { url := "http://a/x.bin", urlPath := "/x.bin", fetch := Fetch.ok respC6,
    done := neverDone }

/-- A one-URL spec whose transport connection fails. -/
def specB : UrlSpec :=
  { url := "http://b/y.bin", urlPath := "/y.bin", fetch := Fetch.connectionError,
    done := neverDone }

/-- C9, witness: the full trace of a concrete two-URL run is a prefix of
itself and satisfies the bound. -/
theorem C9_at_most_one_open_stream_witness :
    countOpens (download fsEmpty rand0 "/cwd" "/dest" [specA, specB]).trace ≤
      countCloses (download fsEmpty rand0 "/cwd" "/dest" [specA, specB]).trace + 1 :=
  C9_at_most_one_open_stream fsEmpty rand0 "/cwd" "/dest" [specA, specB]
    (download fsEmpty rand0 "/cwd" "/dest" [specA, specB]).trace [] (by simp)

/-! ### C7 -/

/-- The trace and outcome components of a `download` call, unfolded. -/
lemma download_eq (fs : FS) (r : Rand) (cwd dest : String) (specs : List UrlSpec) :
    download fs r cwd dest specs =
      { trace := (((List.range specs.length).zip specs).map
          (fun p => Event.addTask p.1 (default_filename_of p.2.urlPath))) ++
          (runTasks cwd dest specs 0 fs r).trace ++
          (processResults ((specs.map UrlSpec.url).zip
            (runTasks cwd dest specs 0 fs r).outcomes)).1,
        outcomes := (runTasks cwd dest specs 0 fs r).outcomes,
        err := (processResults ((specs.map UrlSpec.url).zip
          (runTasks cwd dest specs 0 fs r).outcomes)).2,
        fs := (runTasks cwd dest specs 0 fs r).fs,
        rand := (runTasks cwd dest specs 0 fs r).rand } := rfl

/-- A spec whose response carries a disposition header without a filename,
making its task raise `KeyError`. -/
def specC : UrlSpec :=
  { url := "http://c/", urlPath := "/", fetch := Fetch.ok respNoFn,
    done := neverDone }

/-- C7, counterexample.  The claim says a connection failure always produces
an observable log message identifying the URL and the reason.  The
result-processing loop catches only `ConnectionError`: when an earlier task
raised a different exception (here `KeyError` from a disposition header
without a filename), that exception escapes `download` before the failed
URL's future is processed, and no failure log for it is ever emitted —
although the failing task itself still ran and was deregistered. -/
theorem C7_log_suppressed_cex :
    (download fsEmpty rand0 "/cwd" "/dest" [specC, specB]).outcomes =
      [CopyOutcome.raised PyError.keyError, CopyOutcome.raised PyError.connectionError] ∧
    Event.log (failMsg "http://b/y.bin") ∉
      (download fsEmpty rand0 "/cwd" "/dest" [specC, specB]).trace ∧
    (download fsEmpty rand0 "/cwd" "/dest" [specC, specB]).err =
      some PyError.keyError := by
  refine ⟨rfl, ?_, rfl⟩
  decide

/-- C7, amended.  A transport-level connection failure on the j-th URL
unconditionally deregisters that task from the progress sink, marks exactly
that task's outcome as the connection failure, leaves every task reaching an
outcome, and lets every other URL whose transport succeeds still open its
stream; additionally, when no task's outcome is a non-transport exception
(which would abort the result-processing loop), the failure is logged with a
message naming the URL and the reason. -/
theorem C7_connection_failure_isolated (fs : FS) (r : Rand) (cwd dest : String)
    (specs : List UrlSpec) (j : Nat) (hj : j < specs.length)
    (hfail : (specs.get ⟨j, hj⟩).fetch = Fetch.connectionError) :
    Event.removeTask j ∈ (download fs r cwd dest specs).trace ∧
    (download fs r cwd dest specs).outcomes.get? j =
      some (CopyOutcome.raised PyError.connectionError) ∧
    ((∀ o ∈ (download fs r cwd dest specs).outcomes, benign o = true) →
      Event.log (failMsg (specs.get ⟨j, hj⟩).url) ∈
        (download fs r cwd dest specs).trace) ∧
    (download fs r cwd dest specs).outcomes.length = specs.length ∧
    (∀ i (hi : i < specs.length) resp, (specs.get ⟨i, hi⟩).fetch = Fetch.ok resp →
      Event.streamOpen (specs.get ⟨i, hi⟩).url ∈ (download fs r cwd dest specs).trace) := by
  rw [download_eq]
  refine ⟨?_, ?_, ?_, ?_, ?_⟩
  · have h := runTasks_mem_removeTask cwd dest specs 0 fs r j hj hfail
    rw [Nat.zero_add] at h
    exact List.mem_append_left _ (List.mem_append_right _ h)
  · exact runTasks_get?_connErr cwd dest specs 0 fs r j hj hfail
  · intro hben
    have hpairs : ((specs.get ⟨j, hj⟩).url, CopyOutcome.raised PyError.connectionError) ∈
        (specs.map UrlSpec.url).zip (runTasks cwd dest specs 0 fs r).outcomes := by
      refine mem_zip_of_get? _ _ j _ _ ?_ ?_
      · rw [List.get?_map, List.get?_eq_get hj]
        rfl
      · exact runTasks_get?_connErr cwd dest specs 0 fs r j hj hfail
    have hbenp : ∀ q ∈ (specs.map UrlSpec.url).zip
        (runTasks cwd dest specs 0 fs r).outcomes, benign q.2 = true := by
      intro q hq
      exact hben q.2 (List.of_mem_zip hq).2
    have hlog := processResults_mem_log _ hbenp (specs.get ⟨j, hj⟩).url
      (CopyOutcome.raised PyError.connectionError) hpairs rfl
    exact List.mem_append_right _ hlog
  · exact runTasks_outcomes_length cwd dest specs 0 fs r
  · intro i hi resp hok
    have h := runTasks_mem_streamOpen cwd dest specs 0 fs r i hi resp hok
    exact List.mem_append_left _ (List.mem_append_right _ h)

/-- C7, witness: in a two-URL run whose second transport fails, the failed
task is deregistered and its outcome recorded unconditionally, and — all
outcomes being benign — the failure is logged for that URL. -/
theorem C7_connection_failure_isolated_witness :
    Event.removeTask 1 ∈ (download fsEmpty rand0 "/cwd" "/dest" [specA, specB]).trace ∧
    (download fsEmpty rand0 "/cwd" "/dest" [specA, specB]).outcomes.get? 1 =
      some (CopyOutcome.raised PyError.connectionError) ∧
    Event.log (failMsg "http://b/y.bin") ∈
      (download fsEmpty rand0 "/cwd" "/dest" [specA, specB]).trace := by
  have h := C7_connection_failure_isolated fsEmpty rand0 "/cwd" "/dest"
    [specA, specB] 1 (by norm_num) rfl
  exact ⟨h.1, h.2.1, h.2.2.1 (by decide)⟩

/-! ### C10 -/

/-- Is the event a task deregistration? -/
def isRemoveEv : Event → Bool
  | Event.removeTask _ => true
  | _ => false

/-- Is the event a console log line? -/
def isLogEv : Event → Bool
  | Event.log _ => true
  | _ => false

lemma copyLoop_no_remove (taskId t : Nat) (path : String) (done : Nat → Bool)
    (chunks : List String) (i : Nat) :
    Event.removeTask t ∉ (copyLoop taskId path done chunks i).1 :=
  not_mem_of_countP_zero
    (copyLoop_countP_zero isRemoveEv (fun _ _ => rfl) (fun _ _ => rfl)
      taskId path done chunks i) rfl

lemma copyLoop_no_log (taskId : Nat) (m : String) (path : String)
    (done : Nat → Bool) (chunks : List String) (i : Nat) :
    Event.log m ∉ (copyLoop taskId path done chunks i).1 :=
  not_mem_of_countP_zero
    (copyLoop_countP_zero isLogEv (fun _ _ => rfl) (fun _ _ => rfl)
      taskId path done chunks i) rfl

/-- The only exception the disposition-filename accessor raises is
`KeyError`. -/
lemma filename_from_error (params : List (String × String)) (e : PyError)
    (h : filename_from_content_disposition params = Except.error e) :
    e = PyError.keyError := by
  simp only [filename_from_content_disposition] at h
  cases hl : dictLookup params "filename" with
  | some v => rw [hl] at h; cases h
  | none => rw [hl] at h; exact (Except.error.inj h).symm

/-- The only exception the content-type branch raises is `AttributeError`. -/
lemma resolve_from_ct_error (fs : FS) (cwd : String) (r : Rand)
    (ct : Option String) (e : PyError)
    (h : resolve_from_content_type fs cwd r ct = Except.error e) :
    e = PyError.attributeError := by
  cases ct with
  | none => exact (Except.error.inj h).symm
  | some c =>
      cases hg : guess_extension (takeUntilSemicolon c) with
      | some ext =>
          rw [resolve_from_ct_known fs cwd r c ext hg] at h
          cases h
      | none =>
          rw [resolve_from_ct_unknown fs cwd r c hg] at h
          cases h

/-- The only exception the truthiness step raises is `AttributeError`. -/
lemma resolve_step2_error (fs : FS) (cwd : String) (r : Rand)
    (f : Option String) (ct : Option String) (e : PyError)
    (h : resolve_step2 fs cwd r f ct = Except.error e) :
    e = PyError.attributeError := by
  cases f with
  | none => exact resolve_from_ct_error fs cwd r ct e h
  | some sfn =>
      simp only [resolve_step2] at h
      by_cases he : sfn.data.isEmpty = true
      · rw [if_pos he] at h
        exact resolve_from_ct_error fs cwd r ct e h
      · rw [if_neg he] at h
        cases h

lemma copy_url_body_C10 (fs : FS) (r : Rand) (cwd : String) (taskId : Nat)
    (url path : String) (resp : Response) (filename0 : Option String)
    (evs0 : List Event) (done : Nat → Bool)
    (h0r : Event.removeTask taskId ∉ evs0)
    (h0l : ∀ m, Event.log m ∉ evs0)
    (h0w : countWrites evs0 = 0) :
    ((copy_url_body fs r cwd taskId url path resp filename0 evs0 done).outcome =
        CopyOutcome.cancelled →
      Event.removeTask taskId ∉
        (copy_url_body fs r cwd taskId url path resp filename0 evs0 done).trace ∧
      ∀ m, Event.log m ∉
        (copy_url_body fs r cwd taskId url path resp filename0 evs0 done).trace) ∧
    ((copy_url_body fs r cwd taskId url path resp filename0 evs0 done).outcome =
        CopyOutcome.success →
      Event.removeTask taskId ∈
        (copy_url_body fs r cwd taskId url path resp filename0 evs0 done).trace ∧
      ∃ p, Event.log (doneMsg url p) ∈
        (copy_url_body fs r cwd taskId url path resp filename0 evs0 done).trace) ∧
    (∀ e, (copy_url_body fs r cwd taskId url path resp filename0 evs0 done).outcome =
        CopyOutcome.raised e → e = PyError.attributeError) ∧
    ((copy_url_body fs r cwd taskId url path resp filename0 evs0 done).outcome =
        CopyOutcome.success →
      countWrites (copy_url_body fs r cwd taskId url path resp filename0 evs0 done).trace =
        resp.chunks.length) := by
  unfold copy_url_body
  cases hr : resolve_step2 fs cwd r filename0 resp.contentType with
  | error e =>
      simp only [hr]
      refine ⟨?_, ?_, ?_, ?_⟩
      · intro h
        exact nomatch h
      · intro h
        exact nomatch h
      · intro e2 he2
        have he : e = e2 := CopyOutcome.raised.inj he2
        exact he ▸ resolve_step2_error fs cwd r filename0 resp.contentType e hr
      · intro h
        exact nomatch h
  | ok nm =>
      simp only [hr]
      cases hl : (copyLoop taskId (joinPath path nm.1) done resp.chunks 0).2 with
      | true =>
          simp only [hl, if_true]
          refine ⟨?_, ?_, ?_, ?_⟩
          · intro _
            constructor
            · simp only [List.mem_append, List.mem_cons, List.mem_singleton]
              push_neg
              refine ⟨⟨⟨h0r, by simp⟩, ?_⟩, by simp⟩
              exact copyLoop_no_remove taskId taskId (joinPath path nm.1) done
                resp.chunks 0
            · intro m
              simp only [List.mem_append, List.mem_cons, List.mem_singleton]
              push_neg
              refine ⟨⟨⟨h0l m, by simp⟩, ?_⟩, by simp⟩
              exact copyLoop_no_log taskId m (joinPath path nm.1) done resp.chunks 0
          · intro h
            exact nomatch h
          · intro e2 h
            exact nomatch h
          · intro h
            exact nomatch h
      | false =>
          simp only [hl, Bool.false_eq_true, if_false]
          refine ⟨?_, ?_, ?_, ?_⟩
          · intro h
            exact nomatch h
          · intro _
            constructor
            · refine List.mem_append_right _ ?_
              simp
            · refine ⟨joinPath path nm.1, List.mem_append_right _ ?_⟩
              simp
          · intro e2 h
            exact nomatch h
          · intro _
            rw [countWrites_append, countWrites_append, countWrites_append, h0w]
            have h1 : countWrites [Event.updateTotal taskId resp.contentLength,
              Event.fileOpen (joinPath path nm.1), Event.startTask taskId] = 0 := rfl
            have h2 : countWrites [Event.fileClose (joinPath path nm.1),
              Event.removeTask taskId, Event.log (doneMsg url (joinPath path nm.1)),
              Event.streamClose url] = 0 := rfl
            rw [h1, h2, copyLoop_writes_all taskId (joinPath path nm.1) done
              resp.chunks 0 hl]
            omega

/-- C10.  A transfer stopped by the cancellation flag returns without
deregistering its task from the progress sink and logs nothing; a transfer
whose stream was exhausted deregisters the task and logs the per-file
completion line; a transfer whose connection failed deregisters the task and
logs nothing from inside the task; and the completion line appears only when
the stream was fully exhausted, in which case every chunk was written. -/
theorem C10_cancellation_keeps_task_registered (fs : FS) (r : Rand) (cwd : String)
    (taskId : Nat) (url path : String) (df : Option String) (fetch : Fetch)
    (done : Nat → Bool) :
    ((copy_url fs r cwd taskId url path df fetch done).outcome = CopyOutcome.cancelled →
      Event.removeTask taskId ∉ (copy_url fs r cwd taskId url path df fetch done).trace ∧
      ∀ m, Event.log m ∉ (copy_url fs r cwd taskId url path df fetch done).trace) ∧
    ((copy_url fs r cwd taskId url path df fetch done).outcome = CopyOutcome.success →
      Event.removeTask taskId ∈ (copy_url fs r cwd taskId url path df fetch done).trace ∧
      ∃ p, Event.log (doneMsg url p) ∈
        (copy_url fs r cwd taskId url path df fetch done).trace) ∧
    ((copy_url fs r cwd taskId url path df fetch done).outcome =
        CopyOutcome.raised PyError.connectionError →
      Event.removeTask taskId ∈ (copy_url fs r cwd taskId url path df fetch done).trace ∧
      ∀ m, Event.log m ∉ (copy_url fs r cwd taskId url path df fetch done).trace) ∧
    (∀ resp, fetch = Fetch.ok resp →
      (copy_url fs r cwd taskId url path df fetch done).outcome = CopyOutcome.success →
      countWrites (copy_url fs r cwd taskId url path df fetch done).trace =
        resp.chunks.length) := by
  unfold copy_url
  cases fetch with
  | connectionError =>
      refine ⟨?_, ?_, ?_, ?_⟩
      · intro h
        exact nomatch h
      · intro h
        exact nomatch h
      · intro _
        constructor
        · simp
        · intro m
          simp
      · intro resp h
        exact nomatch h
  | ok resp =>
      cases hd : resp.dispositionParams with
      | none =>
          simp only [hd]
          have h := copy_url_body_C10 fs r cwd taskId url path resp df
            [Event.streamOpen url] done (by simp) (fun m => by simp) rfl
          refine ⟨h.1, h.2.1, ?_, ?_⟩
          · intro hconn
            exact absurd (h.2.2.1 PyError.connectionError hconn) (by decide)
          · intro resp2 hr2
            obtain rfl : resp = resp2 := Fetch.ok.inj hr2
            exact h.2.2.2
      | some params =>
          cases hf : filename_from_content_disposition params with
          | error e =>
              simp only [hd, hf]
              refine ⟨?_, ?_, ?_, ?_⟩
              · intro h
                exact nomatch h
              · intro h
                exact nomatch h
              · intro hconn
                exfalso
                have he : e = PyError.connectionError := CopyOutcome.raised.inj hconn
                have hk : e = PyError.keyError := filename_from_error params e hf
                rw [he] at hk
                cases hk
              · intro resp2 hr2 h
                exact nomatch h
          | ok fn =>
              simp only [hd, hf]
              have h := copy_url_body_C10 fs r cwd taskId url path resp (some fn)
                [Event.streamOpen url, Event.updateFilename taskId fn] done
                (by simp) (fun m => by simp) rfl
              refine ⟨h.1, h.2.1, ?_, ?_⟩
              · intro hconn
                exact absurd (h.2.2.1 PyError.connectionError hconn) (by decide)
              · intro resp2 hr2
                obtain rfl : resp = resp2 := Fetch.ok.inj hr2
                exact h.2.2.2

/-- C10, witness: a concrete cancelled transfer leaves no deregistration and
no log line in its trace. -/
theorem C10_cancellation_keeps_task_registered_witness :
    Event.removeTask 0 ∉
      (copy_url fsEmpty rand0 "/cwd" 0 "http://u/x.bin" "/d" (some "x.bin")
        (Fetch.ok respC6) alwaysDone).trace :=
  ((C10_cancellation_keeps_task_registered fsEmpty rand0 "/cwd" 0 "http://u/x.bin"
    "/d" (some "x.bin") (Fetch.ok respC6) alwaysDone).1 rfl).1

end PyDownloader
